import Mathlib

/-!
# Verification of the semiconductor production dashboard (`src/app.py`)

This file shallowly embeds the data-reshaping core of `app.py` — the
`process_data` function (pandas groupby / concat / pivot_table / sort_values)
and the chart-summary construction in `main` — and proves the spec's claims
about them.

Modelling conventions:

* A row returned by the SQL query (`get_production_data`) is a
  `ProductionRecord` with the five selected columns.  Months are modelled as
  natural numbers (e.g. `202401` for 2024-01); amounts as integers.
* The Korean string literals of the source are kept verbatim:
  `"12인치"` = "12-inch", `"8인치"` = "8-inch", `"전체"` = the "ALL" sentinel
  the source assigns to the aggregate rows' `nano` column.
* `pd.DataFrame(data)` on an empty list produces a frame with *no columns*,
  so `df.groupby(['inch', 'line', 'month'])` raises `KeyError`.  We model
  `process_data` as `Except String PivotTable`, erroring exactly on empty
  input.
* `groupby` sorts its group keys and `pivot_table` sorts its index and
  columns; these sorts are over duplicate-free key lists, so any correct
  sorting algorithm produces the same list.  We use `List.insertionSort`
  (structural recursion, hence computable by `decide`).
* `sort_values('sort_order')` uses pandas' default `kind='quicksort'`, which
  guarantees the key order but not the relative order of ties.  We model it
  with a stable sort; facts proved below about the sorted output depend only
  on the key order (permutation and sortedness), not on tie order.
* A pivot cell that receives no contribution is `NaN`; we model cells as
  `Option Int` (`none` = NaN).  `pivot_table(aggfunc='first')` takes the
  first contributing value in concatenation order.
* `Series.mean()` skips NaN: the mean is taken over the non-null cells of
  the column, as a rational number (`none` when there are no such cells).
-/

namespace Dashboard

/-- One row of the query result: the five selected columns of
`semiconductor_production` (`inch`, `line`, `nano`,
`date_trunc('month', month)`, `production_amount`). -/
structure ProductionRecord where
  inch : String
  line : String
  nano : String
  month : Nat
  production_amount : Int
  deriving DecidableEq

/-- Duplicate removal keeping the first occurrence of each element, with an
accumulator of already-seen elements (structural recursion so that concrete
instances reduce). -/
def dedupFirstAux {α : Type} [DecidableEq α] (seen : List α) : List α → List α
  | [] => []
  | a :: l => if a ∈ seen then dedupFirstAux seen l else a :: dedupFirstAux (a :: seen) l

/-- Duplicate removal keeping first occurrences: the distinct values of a
column, in order of first appearance. -/
def dedupFirst {α : Type} [DecidableEq α] (l : List α) : List α :=
  dedupFirstAux [] l

/-- Code-point comparison of characters. -/
def charLt (a b : Char) : Bool := decide (a.val.toNat < b.val.toNat)

/-- Strict lexicographic code-point comparison of character lists — the
string comparison Python (and hence pandas key sorting) uses. -/
def strLtData : List Char → List Char → Bool
  | [], [] => false
  | [], _ :: _ => true
  | _ :: _, [] => false
  | a :: as, b :: bs => charLt a b || (decide (a = b) && strLtData as bs)

/-- Strict lexicographic comparison of strings by code points. -/
def strLt (a b : String) : Bool := strLtData a.data b.data

/-- Lexicographic order on `(inch, line, month)` group keys, as used by
`groupby(['inch', 'line', 'month'])` when sorting group keys. -/
def lexLeG (a b : String × String × Nat) : Prop :=
  strLt a.1 b.1 = true ∨
    (a.1 = b.1 ∧ (strLt a.2.1 b.2.1 = true ∨ (a.2.1 = b.2.1 ∧ a.2.2 ≤ b.2.2)))

instance : DecidableRel lexLeG := fun a b => by unfold lexLeG; infer_instance

/-- Lexicographic order on `(inch, line, nano)` pivot index keys, as used by
`pivot_table` when sorting its index. -/
def lexLeK (a b : String × String × String) : Prop :=
  strLt a.1 b.1 = true ∨
    (a.1 = b.1 ∧ (strLt a.2.1 b.2.1 = true ∨
      (a.2.1 = b.2.1 ∧ (strLt a.2.2 b.2.2 = true ∨ a.2.2 = b.2.2))))

instance : DecidableRel lexLeK := fun a b => by unfold lexLeK; infer_instance

/-- Order on month column labels, as used by `pivot_table` when sorting its
columns. -/
def natLe (a b : Nat) : Prop := a ≤ b

instance : DecidableRel natLe := fun a b => by unfold natLe; infer_instance

/-- The sorted distinct `(inch, line, month)` group keys of
`df.groupby(['inch', 'line', 'month'])`. -/
def groupKeys (df : List ProductionRecord) : List (String × String × Nat) :=
  List.insertionSort lexLeG (dedupFirst (df.map fun r => (r.inch, r.line, r.month)))

/-- The grouped sum `['production_amount'].sum()` for one group key. -/
def sumAmounts (df : List ProductionRecord) (g : String × String × Nat) : Int :=
  ((df.filter fun r => decide ((r.inch, r.line, r.month) = g)).map
    (fun r => r.production_amount)).sum

/-- One aggregate row: the grouped sum with `nano` set to the sentinel
`'전체'` ("ALL"). -/
def aggRow (df : List ProductionRecord) (g : String × String × Nat) : ProductionRecord :=
  ⟨g.1, g.2.1, "전체", g.2.2, sumAmounts df g⟩

/-- Source `total_by_inch`: the groupby-sum
`df.groupby(['inch','line','month'])['production_amount'].sum().reset_index()`
followed by `total_by_inch['nano'] = '전체'`. -/
def total_by_inch (df : List ProductionRecord) : List ProductionRecord :=
  (groupKeys df).map (aggRow df)

/-- Source `total_by_line`: computed by the source exactly as
`total_by_inch` (the same groupby-sum with `nano = '전체'`). -/
def total_by_line (df : List ProductionRecord) : List ProductionRecord :=
  (groupKeys df).map (aggRow df)

/-- Source `result_df = pd.concat([total_by_inch, total_by_line, df])`. -/
def result_df (df : List ProductionRecord) : List ProductionRecord :=
  total_by_inch df ++ total_by_line df ++ df

/-- One row of the wide pivot table: the three index columns and one
`Option Int` cell per month column (`none` = NaN). -/
structure PivotRow where
  inch : String
  line : String
  nano : String
  amounts : List (Nat × Option Int)
  deriving DecidableEq

/-- The whole pivot table: its month column labels and its rows. -/
structure PivotTable where
  months : List Nat
  rows : List PivotRow
  deriving DecidableEq

/-- The pivot index key of a raw row. -/
def rowKey (r : ProductionRecord) : String × String × String := (r.inch, r.line, r.nano)

/-- The pivot index key of a pivot row. -/
def pivotRowKey (r : PivotRow) : String × String × String := (r.inch, r.line, r.nano)

/-- The rows of `result_df` contributing to the cell at index key `k` and
month column `m`, in dataframe order. -/
def contribs (rows : List ProductionRecord) (k : String × String × String) (m : Nat) :
    List ProductionRecord :=
  rows.filter fun r => decide (rowKey r = k ∧ r.month = m)

/-- The pivot cell: `aggfunc='first'` keeps the first contributing value;
no contribution gives NaN (`none`). -/
def cellValue (rows : List ProductionRecord) (k : String × String × String) (m : Nat) :
    Option Int :=
  (contribs rows k m).head?.map fun r => r.production_amount

/-- The sorted distinct month column labels of the pivot table. -/
def pivotMonths (rows : List ProductionRecord) : List Nat :=
  List.insertionSort natLe (dedupFirst (rows.map fun r => r.month))

/-- The sorted distinct `(inch, line, nano)` index keys of the pivot table. -/
def pivotKeys (rows : List ProductionRecord) : List (String × String × String) :=
  List.insertionSort lexLeK (dedupFirst (rows.map rowKey))

/-- The pivot row built for one index key: one cell per month column. -/
def mkPivotRow (rows : List ProductionRecord) (k : String × String × String) : PivotRow :=
  ⟨k.1, k.2.1, k.2.2, (pivotMonths rows).map fun m => (m, cellValue rows k m)⟩

/-- Source `result_df.pivot_table(index=['inch','line','nano'],
columns='month', values='production_amount', aggfunc='first')
.reset_index()`. -/
def pivot_table (rows : List ProductionRecord) : PivotTable :=
  ⟨pivotMonths rows, (pivotKeys rows).map (mkPivotRow rows)⟩

/-- Source `pivot_df['inch'].map(\x7b'12인치': 0, '8인치': 1\x7d)`: the result
is NaN (`none`) for any other value. -/
def inchRank (s : String) : Option Nat :=
  if s = "12인치" then some 0 else if s = "8인치" then some 1 else none

/-- Source `pivot_df['nano'].map(\x7b'전체': 0\x7d).fillna(1)`. -/
def nanoRank (s : String) : Nat :=
  if s = "전체" then 0 else 1

/-- The `sort_order` key column: `inch rank * 1000 + nano rank * 100`
(NaN, i.e. `none`, whenever the inch rank is NaN). -/
def sort_order (r : PivotRow) : Option Nat :=
  (inchRank r.inch).map fun i => i * 1000 + nanoRank r.nano * 100

/-- Ascending comparison of `sort_order` keys with NaN placed last
(`sort_values` default `na_position='last'`). -/
def optLe : Option Nat → Option Nat → Bool
  | some a, some b => decide (a ≤ b)
  | some _, none => true
  | none, some _ => false
  | none, none => true

/-- The row ordering used by `sort_values('sort_order')`. -/
def rowLe (a b : PivotRow) : Prop := optLe (sort_order a) (sort_order b) = true

instance : DecidableRel rowLe := fun a b => by unfold rowLe; infer_instance

instance : IsTotal PivotRow rowLe where
  total a b := by
    unfold rowLe
    cases sort_order a <;> cases sort_order b <;> (simp [optLe]; try omega)

instance : IsTrans PivotRow rowLe where
  trans a b c := by
    unfold rowLe
    cases sort_order a <;> cases sort_order b <;> cases sort_order c <;>
      (simp [optLe]; try omega)

/-- Source `pivot_df.sort_values('sort_order').drop('sort_order', axis=1)`:
reorder the rows by the `sort_order` key (the key column itself is dropped
and never appears in the returned table). -/
def sortStep (t : PivotTable) : PivotTable :=
  ⟨t.months, List.insertionSort rowLe t.rows⟩

/-- Source `process_data`: build the dataframe, aggregate, concatenate,
pivot and sort.  On an empty input the dataframe has no columns and
`df.groupby(['inch', 'line', 'month'])` raises `KeyError: 'inch'`. -/
def process_data (data : List ProductionRecord) : Except String PivotTable :=
  if data.isEmpty then Except.error "KeyError: inch"
  else Except.ok (sortStep (pivot_table (result_df data)))

/-- The Reshaper variant recommended by the spec: "an implementer should
perform the aggregation once and treat two aggregate passes as unnecessary" —
it concatenates a single copy of the aggregate rows with the raw rows. -/
def process_data_singleAgg (data : List ProductionRecord) : Except String PivotTable :=
  if data.isEmpty then Except.error "KeyError: inch"
  else Except.ok (sortStep (pivot_table (total_by_inch data ++ data)))

/-! ## The dashboard shell: filters and chart summary (`main`) -/

/-- The sidebar filters:
`df[df['inch'].isin(inch_filter) & df['line'].isin(line_filter)]`. -/
def filterTable (t : PivotTable) (inchF lineF : List String) : PivotTable :=
  ⟨t.months, t.rows.filter fun r => decide (r.inch ∈ inchF ∧ r.line ∈ lineF)⟩

/-- The non-null cells of one month column, in row order. -/
def colCells (t : PivotTable) (m : Nat) : List Int :=
  t.rows.filterMap fun r => (r.amounts.lookup m).join

/-- Pandas `Series.mean()` of one month column: the mean of its non-null cells
(NaN, i.e. `none`, for an all-null or empty column). -/
def colMean (t : PivotTable) (m : Nat) : Option ℚ :=
  let vs : List Int := colCells t m
  if vs.isEmpty then none
  else some (((vs.map fun v => (v : ℚ)).sum) / (vs.length : ℚ))

/-- One row of `chart_data`: month, series label (`'실제'` = actual,
`'예측'` = predicted) and the mean production for that month. -/
structure ChartEntry where
  month : Nat
  series : String
  mean : Option ℚ
  deriving DecidableEq

/-- The chart-data construction of `main`: `numeric_columns` is the list of
month columns of the *actual* filtered pivot; the actual means and the
predicted means are computed per column.  Indexing
`predicted_filtered[col]` with a column absent from the predicted pivot
raises `KeyError` (propagated to the top-level handler). -/
def buildChartData (actual_filtered predicted_filtered : PivotTable) :
    Except String (List ChartEntry) :=
  if actual_filtered.months.all fun c => decide (c ∈ predicted_filtered.months) then
    Except.ok
      ((actual_filtered.months.map fun m => ⟨m, "실제", colMean actual_filtered m⟩) ++
       (actual_filtered.months.map fun m => ⟨m, "예측", colMean predicted_filtered m⟩))
  else Except.error "KeyError: month"

/-- Written from the spec's words for the Chart Summary Builder: the
arithmetic mean of the given month's values over *all* currently filtered
pivot rows — no exclusion of the `'전체'` ("ALL") aggregate rows. -/
def claimMean (t : PivotTable) (inchF lineF : List String) (m : Nat) : Option ℚ :=
  let vs : List Int := (t.rows.filter fun r =>
    decide (r.inch ∈ inchF ∧ r.line ∈ lineF)).filterMap fun r => (r.amounts.lookup m).join
  if vs.isEmpty then none
  else some (((vs.map fun v => (v : ℚ)).sum) / (vs.length : ℚ))

/-! ## Concrete inputs used by the witnesses -/

/-- The spec's running example input:
`[(12-inch, L1, N1, 2024-01, 100), (12-inch, L1, N2, 2024-01, 50)]`. -/
def exData : List ProductionRecord :=
  [⟨"12인치", "L1", "N1", 202401, 100⟩, ⟨"12인치", "L1", "N2", 202401, 50⟩]

/-- The pivot table the pipeline produces for `exData`: the ALL-row first
with the summed amount, then the two node rows. -/
def exTable : PivotTable :=
  ⟨[202401],
   [⟨"12인치", "L1", "전체", [(202401, some 150)]⟩,
    ⟨"12인치", "L1", "N1", [(202401, some 100)]⟩,
    ⟨"12인치", "L1", "N2", [(202401, some 50)]⟩]⟩

/-- An input with two raw rows on the same `(inch, line, nano, month)` cell:
the pivot's `first` aggregation must pick 100, not the sum 150. -/
def dupData : List ProductionRecord :=
  [⟨"12인치", "L1", "N1", 202401, 100⟩, ⟨"12인치", "L1", "N1", 202401, 50⟩]

/-- The pivot table the pipeline produces for `dupData`: the duplicated
`N1` cell keeps the first value 100. -/
def dupTable : PivotTable :=
  ⟨[202401],
   [⟨"12인치", "L1", "전체", [(202401, some 150)]⟩,
    ⟨"12인치", "L1", "N1", [(202401, some 100)]⟩]⟩

/-- A mixed-size input exercising the sort policy: an 8-inch row listed
before a 12-inch row. -/
def mixData : List ProductionRecord :=
  [⟨"8인치", "L2", "N3", 202401, 30⟩, ⟨"12인치", "L1", "N1", 202401, 100⟩]

/-- The pivot table the pipeline produces for `mixData`: 12-inch rows
precede 8-inch rows, and within each size the ALL-row comes first. -/
def mixTable : PivotTable :=
  ⟨[202401],
   [⟨"12인치", "L1", "전체", [(202401, some 100)]⟩,
    ⟨"12인치", "L1", "N1", [(202401, some 100)]⟩,
    ⟨"8인치", "L2", "전체", [(202401, some 30)]⟩,
    ⟨"8인치", "L2", "N3", [(202401, some 30)]⟩]⟩

/-- A one-column filtered "actual" table whose month is absent from
`emptyMonthsTable`. -/
def oneMonthTable : PivotTable :=
  ⟨[202401], [⟨"12인치", "L1", "전체", [(202401, some 150)]⟩]⟩

/-- A table with no month columns at all. -/
def emptyMonthsTable : PivotTable :=
  ⟨[], [⟨"12인치", "L1", "전체", []⟩]⟩

/-- The chart data built from `exTable` filtered by its own values: the
mean 100 averages the ALL-row 150 together with the node rows 100 and 50. -/
def exChart : List ChartEntry :=
  [⟨202401, "실제", some 100⟩, ⟨202401, "예측", some 100⟩]

/-! ## Helper lemmas -/

/-- The index keys of a pivot table, in row order. -/
def keysOf (t : PivotTable) : List (String × String × String) :=
  t.rows.map pivotRowKey

/-- The row of `t` carrying index key `k` (the first match, which is unique
because pivot keys are duplicate-free). -/
def findRow (t : PivotTable) (k : String × String × String) : Option PivotRow :=
  t.rows.find? fun r => decide (pivotRowKey r = k)

/-- The table cell at index key `k` and month column `m`: `none` when no
row has key `k` or the row has no column `m`, otherwise `some` of the cell
(itself `none` for NaN). -/
def lookupCell (t : PivotTable) (k : String × String × String) (m : Nat) :
    Option (Option Int) :=
  (findRow t k).bind fun r => r.amounts.lookup m

/-- The sum of the input's per-node amounts for one `(inch, line, month)`
triple — the claim's description of the ALL-row value. -/
def monthlySum (data : List ProductionRecord) (i l : String) (m : Nat) : Int :=
  ((data.filter fun r => decide (r.inch = i ∧ r.line = l ∧ r.month = m)).map
    (fun r => r.production_amount)).sum

theorem mem_dedupFirstAux {α : Type} [DecidableEq α] (l : List α) (seen : List α) (a : α) :
    a ∈ dedupFirstAux seen l ↔ a ∈ l ∧ a ∉ seen := by
  induction l generalizing seen with
  | nil => simp [dedupFirstAux]
  | cons b l ih =>
    by_cases hb : b ∈ seen
    · rw [dedupFirstAux, if_pos hb, ih]
      constructor
      · exact fun ⟨h1, h2⟩ => ⟨List.mem_cons_of_mem _ h1, h2⟩
      · rintro ⟨h1, h2⟩
        rcases List.mem_cons.1 h1 with rfl | h1
        · exact absurd hb h2
        · exact ⟨h1, h2⟩
    · rw [dedupFirstAux, if_neg hb]
      simp only [List.mem_cons, ih]
      by_cases hab : a = b
      · subst hab; tauto
      · tauto

theorem mem_dedupFirst {α : Type} [DecidableEq α] (l : List α) (a : α) :
    a ∈ dedupFirst l ↔ a ∈ l := by
  rw [dedupFirst, mem_dedupFirstAux]
  simp

theorem nodup_dedupFirstAux {α : Type} [DecidableEq α] (l : List α) (seen : List α) :
    (dedupFirstAux seen l).Nodup := by
  induction l generalizing seen with
  | nil => simp [dedupFirstAux]
  | cons b l ih =>
    by_cases hb : b ∈ seen
    · rw [dedupFirstAux, if_pos hb]; exact ih seen
    · rw [dedupFirstAux, if_neg hb, List.nodup_cons]
      refine ⟨fun hmem => ?_, ih _⟩
      exact ((mem_dedupFirstAux l _ b).1 hmem).2 (List.mem_cons_self _ _)

theorem nodup_dedupFirst {α : Type} [DecidableEq α] (l : List α) :
    (dedupFirst l).Nodup :=
  nodup_dedupFirstAux l []

theorem dedupFirstAux_congr {α : Type} [DecidableEq α] (l : List α) (s₁ s₂ : List α)
    (h : ∀ a, a ∈ s₁ ↔ a ∈ s₂) : dedupFirstAux s₁ l = dedupFirstAux s₂ l := by
  induction l generalizing s₁ s₂ with
  | nil => rfl
  | cons b l ih =>
    by_cases hb : b ∈ s₁
    · rw [dedupFirstAux, if_pos hb, dedupFirstAux, if_pos ((h b).1 hb)]
      exact ih s₁ s₂ h
    · rw [dedupFirstAux, if_neg hb, dedupFirstAux, if_neg (fun hx => hb ((h b).2 hx))]
      rw [ih (b :: s₁) (b :: s₂) (by intro a; simp [h a])]

theorem dedupFirstAux_append {α : Type} [DecidableEq α] (x y : List α) (s : List α) :
    dedupFirstAux s (x ++ y) = dedupFirstAux s x ++ dedupFirstAux (x ++ s) y := by
  induction x generalizing s with
  | nil => simp [dedupFirstAux]
  | cons a x ih =>
    by_cases ha : a ∈ s
    · rw [List.cons_append, dedupFirstAux, if_pos ha, dedupFirstAux, if_pos ha, ih s]
      congr 1
      refine dedupFirstAux_congr y _ _ fun b => ?_
      simp only [List.cons_append, List.mem_cons]
      constructor
      · exact fun hb => Or.inr hb
      · rintro (rfl | hb)
        · exact List.mem_append.2 (Or.inr ha)
        · exact hb
    · rw [List.cons_append, dedupFirstAux, if_neg ha, dedupFirstAux, if_neg ha, ih (a :: s)]
      refine congrArg (a :: ·) (congrArg (dedupFirstAux (a :: s) x ++ ·) ?_)
      refine dedupFirstAux_congr y _ _ fun b => ?_
      simp only [List.cons_append, List.mem_cons, List.mem_append]
      tauto

theorem dedupFirstAux_nil_of_subset {α : Type} [DecidableEq α] (l : List α) (s : List α)
    (h : ∀ a ∈ l, a ∈ s) : dedupFirstAux s l = [] := by
  induction l with
  | nil => rfl
  | cons b l ih =>
    rw [dedupFirstAux, if_pos (h b (List.mem_cons_self _ _))]
    exact ih fun a ha => h a (List.mem_cons_of_mem _ ha)

/-- Removing first-occurrence duplicates ignores a repeated copy of a
leading block. -/
theorem dedupFirst_double {α : Type} [DecidableEq α] (x y : List α) :
    dedupFirst (x ++ (x ++ y)) = dedupFirst (x ++ y) := by
  unfold dedupFirst
  rw [dedupFirstAux_append x (x ++ y) [], dedupFirstAux_append x y [],
    dedupFirstAux_append x y (x ++ [])]
  rw [dedupFirstAux_nil_of_subset x (x ++ []) fun a ha => List.mem_append.2 (Or.inl ha)]
  rw [List.nil_append]
  refine congrArg (dedupFirstAux [] x ++ ·) ?_
  refine dedupFirstAux_congr y _ _ fun b => ?_
  simp

theorem mem_groupKeys (df : List ProductionRecord) (g : String × String × Nat) :
    g ∈ groupKeys df ↔ ∃ r ∈ df, (r.inch, r.line, r.month) = g := by
  rw [groupKeys, List.mem_insertionSort, mem_dedupFirst, List.mem_map]

theorem nodup_groupKeys (df : List ProductionRecord) : (groupKeys df).Nodup :=
  ((List.perm_insertionSort lexLeG _).nodup_iff).2 (nodup_dedupFirst _)

theorem mem_pivotKeys (rows : List ProductionRecord) (k : String × String × String) :
    k ∈ pivotKeys rows ↔ ∃ r ∈ rows, rowKey r = k := by
  rw [pivotKeys, List.mem_insertionSort, mem_dedupFirst, List.mem_map]

theorem nodup_pivotKeys (rows : List ProductionRecord) : (pivotKeys rows).Nodup :=
  ((List.perm_insertionSort lexLeK _).nodup_iff).2 (nodup_dedupFirst _)

theorem mem_pivotMonths (rows : List ProductionRecord) (m : Nat) :
    m ∈ pivotMonths rows ↔ ∃ r ∈ rows, r.month = m := by
  rw [pivotMonths, List.mem_insertionSort, mem_dedupFirst, List.mem_map]

/-- In a duplicate-free list, filtering for one of its elements yields
exactly that element. -/
theorem filter_eq_singleton_of_nodup {α : Type} [DecidableEq α] (l : List α) (a : α)
    (hn : l.Nodup) (ha : a ∈ l) : l.filter (fun x => decide (x = a)) = [a] := by
  induction l with
  | nil => cases ha
  | cons b l ih =>
    rcases List.nodup_cons.1 hn with ⟨hb, hn⟩
    rcases List.mem_cons.1 ha with rfl | ha
    · rw [List.filter_cons, if_pos (by simp)]
      have hnil : l.filter (fun x => decide (x = a)) = [] := by
        rw [List.filter_eq_nil_iff]
        intro x hx
        simp only [decide_eq_true_eq]
        rintro rfl
        exact hb hx
      rw [hnil]
    · have hne : ¬((fun x => decide (x = a)) b = true) := by
        simp only [decide_eq_true_eq]
        rintro rfl
        exact hb ha
      rw [List.filter_cons, if_neg hne, ih hn ha]

/-- Finding with a key predicate returns the unique row carrying that key,
in a list whose keys are duplicate-free. -/
theorem find?_key_of_nodup {β γ : Type} [DecidableEq γ] (key : β → γ) (l : List β)
    (h : (l.map key).Nodup) (r : β) (hr : r ∈ l) :
    l.find? (fun x => decide (key x = key r)) = some r := by
  induction l with
  | nil => cases hr
  | cons b l ih =>
    rw [List.map_cons, List.nodup_cons] at h
    rcases h with ⟨hb, hn⟩
    by_cases hkey : key b = key r
    · rw [List.find?_cons_of_pos _ (by simpa using hkey)]
      rcases List.mem_cons.1 hr with rfl | hr
      · rfl
      · rw [hkey] at hb
        exact absurd (List.mem_map_of_mem key hr) hb
    · rw [List.find?_cons_of_neg _ (by simpa using hkey)]
      rcases List.mem_cons.1 hr with rfl | hr
      · exact absurd rfl hkey
      · exact ih hn hr

/-- Looking a key up in the association list built by pairing each key with
a computed value. -/
theorem lookup_map_pair {β : Type} (l : List Nat) (f : Nat → β) (m : Nat) (hm : m ∈ l) :
    (l.map fun x => (x, f x)).lookup m = some (f m) := by
  induction l with
  | nil => cases hm
  | cons a l ih =>
    by_cases h : m = a
    · subst h; simp [List.lookup]
    · have hba : (m == a) = false := beq_false_of_ne h
      rw [List.map_cons, List.lookup, hba]
      have hm2 : m ∈ l := by
        rcases List.mem_cons.1 hm with rfl | hm2
        · exact absurd rfl h
        · exact hm2
      exact ih hm2

theorem process_data_ok (data : List ProductionRecord) (t : PivotTable)
    (h : process_data data = Except.ok t) :
    data ≠ [] ∧ t = sortStep (pivot_table (result_df data)) := by
  by_cases hd : data.isEmpty
  · rw [process_data, if_pos hd] at h; cases h
  · rw [process_data, if_neg hd] at h
    refine ⟨by simpa [List.isEmpty_iff] using hd, ?_⟩
    cases h; rfl

theorem total_by_line_eq (df : List ProductionRecord) :
    total_by_line df = total_by_inch df := rfl

theorem keysOf_pivot_table (rows : List ProductionRecord) :
    keysOf (pivot_table rows) = pivotKeys rows := by
  rw [keysOf, pivot_table, List.map_map]
  exact List.map_id _

theorem sortStep_rows_perm (t : PivotTable) : (sortStep t).rows.Perm t.rows :=
  List.perm_insertionSort rowLe t.rows

theorem mem_rows_of_process (data : List ProductionRecord) (t : PivotTable)
    (h : process_data data = Except.ok t) (r : PivotRow) :
    r ∈ t.rows ↔ ∃ k ∈ pivotKeys (result_df data), r = mkPivotRow (result_df data) k := by
  rcases process_data_ok data t h with ⟨-, rfl⟩
  rw [(sortStep_rows_perm _).mem_iff]
  simp only [pivot_table, List.mem_map]
  constructor
  · rintro ⟨k, hk, rfl⟩; exact ⟨k, hk, rfl⟩
  · rintro ⟨k, hk, rfl⟩; exact ⟨k, hk, rfl⟩

theorem keysOf_sortStep_perm (t : PivotTable) : (keysOf (sortStep t)).Perm (keysOf t) :=
  (sortStep_rows_perm t).map pivotRowKey

theorem head?_double {α : Type} (x y : List α) : (x ++ (x ++ y)).head? = (x ++ y).head? := by
  cases x <;> rfl

theorem contribs_double (A D : List ProductionRecord) (k : String × String × String) (m : Nat) :
    (contribs (A ++ (A ++ D)) k m).head? = (contribs (A ++ D) k m).head? := by
  unfold contribs
  simp only [List.filter_append]
  exact head?_double _ _

/-- Pivoting is blind to a duplicated copy of the leading aggregate block:
the duplicate keys are removed and `first` aggregation sees the same first
contribution. -/
theorem pivot_table_double (A D : List ProductionRecord) :
    pivot_table ((A ++ A) ++ D) = pivot_table (A ++ D) := by
  rw [List.append_assoc]
  have hm : pivotMonths (A ++ (A ++ D)) = pivotMonths (A ++ D) := by
    unfold pivotMonths
    simp only [List.map_append]
    rw [dedupFirst_double]
  have hk : pivotKeys (A ++ (A ++ D)) = pivotKeys (A ++ D) := by
    unfold pivotKeys
    simp only [List.map_append]
    rw [dedupFirst_double]
  have hc : ∀ k m, cellValue (A ++ (A ++ D)) k m = cellValue (A ++ D) k m := by
    intro k m
    unfold cellValue
    rw [contribs_double]
  unfold pivot_table
  rw [hm, hk]
  refine congrArg (PivotTable.mk (pivotMonths (A ++ D))) ?_
  refine List.map_congr_left fun k _ => ?_
  unfold mkPivotRow
  rw [hm]
  refine congrArg (PivotRow.mk k.1 k.2.1 k.2.2) ?_
  refine List.map_congr_left fun m _ => ?_
  rw [hc]

/-! ## Claim theorems -/

/-- C1 (status: code_bug — theorem evaluates the code at the failing
input): on an empty query result, `pd.DataFrame([])` has no columns, so
`process_data` raises `KeyError` instead of returning an empty `PivotRow`
sequence as the spec requires. -/
theorem process_data_empty_raises :
    process_data [] = Except.error "KeyError: inch" := rfl

/-- C7: the Reshaper, which concatenates two identical copies of the
ALL-node aggregate rows before pivoting, produces exactly the same output
as the variant that computes and concatenates the aggregate rows only once:
the duplicate copy is deduplicated by the first-wins pivot on the same
keys. -/
theorem process_data_eq_singleAgg (data : List ProductionRecord) :
    process_data data = process_data_singleAgg data := by
  unfold process_data process_data_singleAgg
  by_cases h : data.isEmpty
  · rw [if_pos h, if_pos h]
  · rw [if_neg h, if_neg h]
    refine congrArg (fun x => Except.ok (sortStep x)) ?_
    rw [result_df, total_by_line_eq]
    exact pivot_table_double _ _

/-- C7 witness: the two pipelines agree on the concrete two-record
example. -/
theorem process_data_eq_singleAgg_witness :
    process_data
        [⟨"12인치", "L1", "N1", 202401, 100⟩, ⟨"12인치", "L1", "N2", 202401, 50⟩] =
      process_data_singleAgg
        [⟨"12인치", "L1", "N1", 202401, 100⟩, ⟨"12인치", "L1", "N2", 202401, 50⟩] :=
  process_data_eq_singleAgg _

theorem mem_result_df (data : List ProductionRecord) (r : ProductionRecord) :
    r ∈ result_df data ↔ (∃ g ∈ groupKeys data, aggRow data g = r) ∨ r ∈ data := by
  rw [result_df, total_by_line_eq]
  simp only [List.mem_append, total_by_inch, List.mem_map]
  rw [or_self]

/-- C2: for every non-empty input, the Reshaper produces exactly one
`PivotRow` for each distinct `(inch, line, nano-or-'전체')` key present in
the input — the key list of the output is duplicate-free, and a key occurs
in it exactly when it is a raw row's key or the `'전체'` ("ALL") key of an
`(inch, line)` pair occurring in the input. -/
theorem reshaper_keys_exact (data : List ProductionRecord) (t : PivotTable)
    (h : process_data data = Except.ok t) :
    (keysOf t).Nodup ∧
      ∀ i l n : String, ((i, l, n) ∈ keysOf t ↔
        ((∃ r ∈ data, r.inch = i ∧ r.line = l ∧ r.nano = n) ∨
          (n = "전체" ∧ ∃ r ∈ data, r.inch = i ∧ r.line = l))) := by
  obtain ⟨hne, rfl⟩ := process_data_ok data t h
  have hperm := keysOf_sortStep_perm (pivot_table (result_df data))
  rw [keysOf_pivot_table] at hperm
  refine ⟨hperm.nodup_iff.2 (nodup_pivotKeys _), fun i l n => ?_⟩
  rw [hperm.mem_iff, mem_pivotKeys]
  constructor
  · rintro ⟨r, hr, hkey⟩
    rcases (mem_result_df data r).1 hr with ⟨g, hg, rfl⟩ | hrD
    · have hkey2 : (g.1, g.2.1, "전체") = ((i, l, n) : String × String × String) := hkey
      obtain ⟨h1, h2, h3⟩ : g.1 = i ∧ g.2.1 = l ∧ "전체" = n := by
        rw [Prod.ext_iff, Prod.ext_iff] at hkey2
        exact ⟨hkey2.1, hkey2.2.1, hkey2.2.2⟩
      obtain ⟨rec, hrec, heq⟩ := (mem_groupKeys data g).1 hg
      refine Or.inr ⟨h3.symm, rec, hrec, ?_, ?_⟩
      · rw [← h1]; exact congrArg Prod.fst heq
      · rw [← h2]; exact congrArg (fun p => p.2.1) heq
    · rw [rowKey, Prod.ext_iff, Prod.ext_iff] at hkey
      exact Or.inl ⟨r, hrD, hkey.1, hkey.2.1, hkey.2.2⟩
  · rintro (⟨r, hr, h1, h2, h3⟩ | ⟨rfl, r, hr, h1, h2⟩)
    · exact ⟨r, (mem_result_df data r).2 (Or.inr hr), by rw [rowKey, h1, h2, h3]⟩
    · refine ⟨aggRow data (i, l, r.month), (mem_result_df data _).2 (Or.inl ?_), rfl⟩
      refine ⟨(i, l, r.month), ?_, rfl⟩
      exact (mem_groupKeys data _).2 ⟨r, hr, by rw [h1, h2]⟩

/-- C2 witness: the two-record example is non-empty, its output table's key
list is duplicate-free and it holds the key `(12인치, L1, N1)`. -/
theorem reshaper_keys_exact_witness :
    process_data exData = Except.ok exTable ∧
      (keysOf exTable).Nodup ∧ ("12인치", "L1", "N1") ∈ keysOf exTable := by
  have hok : process_data exData = Except.ok exTable := rfl
  refine ⟨hok, (reshaper_keys_exact exData exTable hok).1, ?_⟩
  refine ((reshaper_keys_exact exData exTable hok).2 "12인치" "L1" "N1").2 ?_
  exact Or.inl ⟨⟨"12인치", "L1", "N1", 202401, 100⟩, by decide, rfl, rfl, rfl⟩

theorem keysOf_nodup_of_process (data : List ProductionRecord) (t : PivotTable)
    (h : process_data data = Except.ok t) : (keysOf t).Nodup := by
  obtain ⟨-, rfl⟩ := process_data_ok data t h
  have hperm := keysOf_sortStep_perm (pivot_table (result_df data))
  rw [keysOf_pivot_table] at hperm
  exact hperm.nodup_iff.2 (nodup_pivotKeys _)

/-- Looking up a cell of the processed table for a key and month present in
the pivot yields the pivot's `first`-aggregated cell value. -/
theorem lookupCell_of_process (data : List ProductionRecord) (t : PivotTable)
    (h : process_data data = Except.ok t) (k : String × String × String)
    (hk : k ∈ pivotKeys (result_df data)) (m : Nat)
    (hm : m ∈ pivotMonths (result_df data)) :
    lookupCell t k m = some (cellValue (result_df data) k m) := by
  have hr : mkPivotRow (result_df data) k ∈ t.rows :=
    (mem_rows_of_process data t h _).2 ⟨k, hk, rfl⟩
  have hnodup : (t.rows.map pivotRowKey).Nodup := keysOf_nodup_of_process data t h
  have hfind := find?_key_of_nodup pivotRowKey t.rows hnodup _ hr
  have hkeq : pivotRowKey (mkPivotRow (result_df data) k) = k := rfl
  rw [hkeq] at hfind
  rw [lookupCell, findRow, hfind]
  show (mkPivotRow (result_df data) k).amounts.lookup m = _
  rw [mkPivotRow]
  exact lookup_map_pair _ _ m hm

/-- The aggregate block contributes exactly one row to the `'전체'` cell of
a group present in the input: the grouped sum. -/
theorem filter_total_by_inch (data : List ProductionRecord) (i l : String) (m : Nat)
    (hg : ((i, l, m) : String × String × Nat) ∈ groupKeys data) :
    (total_by_inch data).filter
        (fun r => decide (rowKey r = ((i, l, "전체") : String × String × String) ∧
          r.month = m)) =
      [aggRow data (i, l, m)] := by
  rw [total_by_inch, List.filter_map]
  have hcongr :
      (groupKeys data).filter
          ((fun r => decide (rowKey r = ((i, l, "전체") : String × String × String) ∧
            r.month = m)) ∘ aggRow data) =
        (groupKeys data).filter (fun g => decide (g = (i, l, m))) := by
    refine List.filter_congr fun g _ => ?_
    simp only [Function.comp_apply, decide_eq_decide]
    show (g.1, g.2.1, "전체") = ((i, l, "전체") : String × String × String) ∧ g.2.2 = m ↔ _
    rw [Prod.ext_iff, Prod.ext_iff, Prod.ext_iff, Prod.ext_iff]
    simp only [and_true, eq_self_iff_true]
    tauto
  rw [hcongr, filter_eq_singleton_of_nodup _ _ (nodup_groupKeys data) hg, List.map_cons,
    List.map_nil]

/-- The ALL-row pivot cell for a group present in the input is the grouped
sum of all matching input amounts. -/
theorem cellValue_all (data : List ProductionRecord) (i l : String) (m : Nat)
    (hg : ((i, l, m) : String × String × Nat) ∈ groupKeys data) :
    cellValue (result_df data) (i, l, "전체") m = some (sumAmounts data (i, l, m)) := by
  rw [cellValue, contribs, result_df, total_by_line_eq]
  simp only [List.filter_append]
  rw [filter_total_by_inch data i l m hg]
  rfl

/-- C3: for every input (in particular those where each
`(inch, line, nano, month)` combination occurs at most once), the `'전체'`
("ALL") row's value at each month present for that `(inch, line)` group
equals the sum of the input's per-node amounts for that
`(inch, line, month)`. -/
theorem all_row_is_sum (data : List ProductionRecord)
    (huniq : (data.map fun r => (r.inch, r.line, r.nano, r.month)).Nodup)
    (t : PivotTable) (h : process_data data = Except.ok t)
    (i l : String) (m : Nat)
    (hex : ∃ r ∈ data, r.inch = i ∧ r.line = l ∧ r.month = m) :
    lookupCell t (i, l, "전체") m = some (some (monthlySum data i l m)) := by
  have hg : ((i, l, m) : String × String × Nat) ∈ groupKeys data := by
    rcases hex with ⟨r, hr, h1, h2, h3⟩
    exact (mem_groupKeys data _).2 ⟨r, hr, by rw [h1, h2, h3]⟩
  have hk : ((i, l, "전체") : String × String × String) ∈ pivotKeys (result_df data) := by
    refine (mem_pivotKeys _ _).2 ⟨aggRow data (i, l, m), ?_, rfl⟩
    exact (mem_result_df data _).2 (Or.inl ⟨(i, l, m), hg, rfl⟩)
  have hm : m ∈ pivotMonths (result_df data) := by
    rcases hex with ⟨r, hr, -, -, h3⟩
    exact (mem_pivotMonths _ _).2 ⟨r, (mem_result_df data r).2 (Or.inr hr), h3⟩
  rw [lookupCell_of_process data t h _ hk m hm, cellValue_all data i l m hg]
  refine congrArg some (congrArg some ?_)
  rw [sumAmounts, monthlySum]
  refine congrArg List.sum (congrArg _ (List.filter_congr fun r _ => ?_))
  simp only [decide_eq_decide]
  rw [Prod.ext_iff, Prod.ext_iff]

/-- C3 witness: on the spec's example, the ALL-row value for 2024-01 is
`150 = 100 + 50`, and the per-node rows keep `100` and `50`. -/
theorem all_row_is_sum_witness :
    (exData.map fun r => (r.inch, r.line, r.nano, r.month)).Nodup ∧
      process_data exData = Except.ok exTable ∧
      lookupCell exTable ("12인치", "L1", "전체") 202401 = some (some 150) ∧
      monthlySum exData "12인치" "L1" 202401 = 150 ∧
      lookupCell exTable ("12인치", "L1", "N1") 202401 = some (some 100) ∧
      lookupCell exTable ("12인치", "L1", "N2") 202401 = some (some 50) := by
  refine ⟨by decide, rfl, ?_, by decide, by decide, by decide⟩
  have h := all_row_is_sum exData (by decide) exTable rfl "12인치" "L1" 202401
    ⟨⟨"12인치", "L1", "N1", 202401, 100⟩, by decide, rfl, rfl, rfl⟩
  rw [h]
  decide

/-- Every row of the processed table takes its `inch` value from some input
record (aggregate rows reuse the group's `inch`). -/
theorem row_inch_of_process (data : List ProductionRecord) (t : PivotTable)
    (h : process_data data = Except.ok t) (r : PivotRow) (hr : r ∈ t.rows) :
    ∃ rec ∈ data, rec.inch = r.inch := by
  obtain ⟨k, hk, rfl⟩ := (mem_rows_of_process data t h r).1 hr
  obtain ⟨s, hs, hkey⟩ := (mem_pivotKeys _ k).1 hk
  have hsk : s.inch = k.1 := congrArg Prod.fst hkey
  have hmk : (mkPivotRow (result_df data) k).inch = k.1 := rfl
  rcases (mem_result_df data s).1 hs with ⟨g, hg, rfl⟩ | hsD
  · obtain ⟨rec, hrec, heq⟩ := (mem_groupKeys data g).1 hg
    refine ⟨rec, hrec, ?_⟩
    rw [hmk, ← hsk]
    exact congrArg Prod.fst heq
  · exact ⟨s, hsD, by rw [hmk, ← hsk]⟩

theorem nanoRank_le (s : String) : nanoRank s ≤ 1 := by
  rw [nanoRank]; split <;> omega

/-- C4: the Sort/Present Policy orders the rows of the processed table by
the key `rank(inch) * 1000 + rank(nano) * 100` with `rank(12인치) = 0`,
`rank(8인치) = 1`, `rank(전체) = 0` and `rank(node) = 1`; consequently —
when every record's `inch` is one of the two size-category enum values —
every 12-inch row precedes every 8-inch row and, within one size category,
the `'전체'` ("ALL") rows precede the individual node rows. -/
theorem sort_policy_order (data : List ProductionRecord) (t : PivotTable)
    (h : process_data data = Except.ok t)
    (henum : ∀ r ∈ data, r.inch = "12인치" ∨ r.inch = "8인치") :
    t.rows.Pairwise rowLe ∧
      t.rows.Pairwise (fun a b =>
        ¬(a.inch = "8인치" ∧ b.inch = "12인치") ∧
          (a.inch = b.inch → ¬(a.nano ≠ "전체" ∧ b.nano = "전체"))) := by
  have hsorted : t.rows.Pairwise rowLe := by
    obtain ⟨-, rfl⟩ := process_data_ok data t h
    exact List.sorted_insertionSort rowLe _
  refine ⟨hsorted, ?_⟩
  refine hsorted.imp_of_mem fun {a b} ha hb hle => ?_
  have hle2 : optLe (sort_order a) (sort_order b) = true := hle
  obtain ⟨ra, hra, hrainch⟩ := row_inch_of_process data t h a ha
  obtain ⟨rb, hrb, hrbinch⟩ := row_inch_of_process data t h b hb
  have hainch : a.inch = "12인치" ∨ a.inch = "8인치" := hrainch ▸ henum ra hra
  have hbinch : b.inch = "12인치" ∨ b.inch = "8인치" := hrbinch ▸ henum rb hrb
  have hna := nanoRank_le a.nano
  have hnb := nanoRank_le b.nano
  constructor
  · rintro ⟨h8, h12⟩
    have hsa : sort_order a = some (1 * 1000 + nanoRank a.nano * 100) := by
      rw [sort_order, h8]; rfl
    have hsb : sort_order b = some (0 * 1000 + nanoRank b.nano * 100) := by
      rw [sort_order, h12]; rfl
    rw [hsa, hsb] at hle2
    simp only [optLe, decide_eq_true_eq] at hle2
    omega
  · rintro hab ⟨hnaz, hnbz⟩
    have hnar : nanoRank a.nano = 1 := by rw [nanoRank, if_neg hnaz]
    have hnbr : nanoRank b.nano = 0 := by rw [nanoRank, if_pos hnbz]
    rcases hainch with h1 | h1
    · have hsa : sort_order a = some (0 * 1000 + 1 * 100) := by
        rw [sort_order, h1, hnar]; rfl
      have hsb : sort_order b = some (0 * 1000 + 0 * 100) := by
        rw [sort_order, ← hab, h1, hnbr]; rfl
      rw [hsa, hsb] at hle2
      simp only [optLe, decide_eq_true_eq] at hle2
      omega
    · have hsa : sort_order a = some (1 * 1000 + 1 * 100) := by
        rw [sort_order, h1, hnar]; rfl
      have hsb : sort_order b = some (1 * 1000 + 0 * 100) := by
        rw [sort_order, ← hab, h1, hnbr]; rfl
      rw [hsa, hsb] at hle2
      simp only [optLe, decide_eq_true_eq] at hle2
      omega

/-- C4 witness: on `mixData` (one 8-inch row listed before one 12-inch
row) the processed table is sorted with 12-inch before 8-inch and the
ALL-row first within each size. -/
theorem sort_policy_order_witness :
    process_data mixData = Except.ok mixTable ∧
      (mixTable.rows.Pairwise rowLe ∧
        mixTable.rows.Pairwise (fun a b =>
          ¬(a.inch = "8인치" ∧ b.inch = "12인치") ∧
            (a.inch = b.inch → ¬(a.nano ≠ "전체" ∧ b.nano = "전체")))) :=
  ⟨rfl, sort_policy_order mixData mixTable rfl (by decide)⟩

/-- C6: during the pivot step, a cell fed by more than one contributing
`result_df` row receives the first encountered contributing value (the
`first` aggregation), not the sum of the contributions. -/
theorem pivot_first_wins (data : List ProductionRecord) (t : PivotTable)
    (h : process_data data = Except.ok t) (k : String × String × String) (m : Nat)
    (hmult : 1 < (contribs (result_df data) k m).length) :
    lookupCell t k m =
      some ((contribs (result_df data) k m).head?.map fun r => r.production_amount) := by
  obtain ⟨r, hrmem⟩ : ∃ r, r ∈ contribs (result_df data) k m := by
    cases hc : contribs (result_df data) k m with
    | nil => rw [hc] at hmult; simp at hmult
    | cons x xs => exact ⟨x, List.mem_cons_self x xs⟩
  have hmem := (List.mem_filter.1 hrmem).1
  have hrk : rowKey r = k ∧ r.month = m :=
    of_decide_eq_true (List.mem_filter.1 hrmem).2
  have hk : k ∈ pivotKeys (result_df data) := (mem_pivotKeys _ _).2 ⟨r, hmem, hrk.1⟩
  have hm : m ∈ pivotMonths (result_df data) := (mem_pivotMonths _ _).2 ⟨r, hmem, hrk.2⟩
  rw [lookupCell_of_process data t h k hk m hm]
  rfl

/-- C6 witness: `dupData` has two contributions on the `N1` cell for
2024-01; the pivot keeps the first (100), not their sum (150). -/
theorem pivot_first_wins_witness :
    process_data dupData = Except.ok dupTable ∧
      1 < (contribs (result_df dupData) ("12인치", "L1", "N1") 202401).length ∧
      lookupCell dupTable ("12인치", "L1", "N1") 202401 = some (some 100) ∧
      ((contribs (result_df dupData) ("12인치", "L1", "N1") 202401).map
        (fun r => r.production_amount)).sum = 150 ∧
      (100 : Int) ≠ 150 := by
  refine ⟨rfl, by decide, ?_, by decide, by decide⟩
  have h := pivot_first_wins dupData dupTable rfl ("12인치", "L1", "N1") 202401 (by decide)
  rw [h]
  decide

/-- C9: the Sort/Present Policy output is a permutation of the pivoted
rows — every row keeps its `inch`, `line`, `nano` and per-month cells —
and the returned table's columns are exactly the pivot's month columns (the
temporary `sort_order` key is dropped before returning and is not among
them). -/
theorem sort_frame_effect (data : List ProductionRecord) (t : PivotTable)
    (h : process_data data = Except.ok t) :
    t.rows.Perm (pivot_table (result_df data)).rows ∧
      t.months = (pivot_table (result_df data)).months := by
  obtain ⟨-, rfl⟩ := process_data_ok data t h
  exact ⟨sortStep_rows_perm _, rfl⟩

/-- C9 witness: on the example input the sorted table is a permutation of
the pivoted rows and keeps the same month columns. -/
theorem sort_frame_effect_witness :
    process_data exData = Except.ok exTable ∧
      (exTable.rows.Perm (pivot_table (result_df exData)).rows ∧
        exTable.months = (pivot_table (result_df exData)).months) :=
  ⟨rfl, sort_frame_effect exData exTable rfl⟩

/-- C10: when some month column of the actual filtered pivot is absent
from the predicted filtered pivot, the chart construction fails with the
`KeyError` raised by indexing the predicted pivot (caught by the top-level
handler) instead of producing chart data. -/
theorem chart_missing_month_raises (actual predicted : PivotTable)
    (inchF lineF : List String)
    (hmiss : ∃ c ∈ (filterTable actual inchF lineF).months,
      c ∉ (filterTable predicted inchF lineF).months) :
    buildChartData (filterTable actual inchF lineF) (filterTable predicted inchF lineF) =
      Except.error "KeyError: month" := by
  rcases hmiss with ⟨c, hc, hcn⟩
  have hfalse : ¬(((filterTable actual inchF lineF).months.all
      fun x => decide (x ∈ (filterTable predicted inchF lineF).months)) = true) := by
    intro hall
    exact hcn (of_decide_eq_true (List.all_eq_true.1 hall c hc))
  rw [buildChartData, if_neg hfalse]

/-- C10 witness: a one-month actual table against a predicted table with
no month columns makes the chart construction error out. -/
theorem chart_missing_month_raises_witness :
    (202401 ∈ (filterTable oneMonthTable ["12인치"] ["L1"]).months ∧
      202401 ∉ (filterTable emptyMonthsTable ["12인치"] ["L1"]).months) ∧
      buildChartData (filterTable oneMonthTable ["12인치"] ["L1"])
          (filterTable emptyMonthsTable ["12인치"] ["L1"]) =
        Except.error "KeyError: month" :=
  ⟨⟨by decide, by decide⟩,
   chart_missing_month_raises oneMonthTable emptyMonthsTable ["12인치"] ["L1"]
     ⟨202401, by decide, by decide⟩⟩

/-- The claim-side mean (over all filtered rows, aggregate rows included)
coincides with the source's per-column `Series.mean()` on the filtered
table. -/
theorem claimMean_eq_colMean (t : PivotTable) (inchF lineF : List String) (m : Nat) :
    claimMean t inchF lineF m = colMean (filterTable t inchF lineF) m := by
  rw [claimMean, colMean, colCells, filterTable]

/-- C8: every chart value is the arithmetic mean of that month's values
over all pivot rows passing the current filters — the `'전체'` ("ALL")
aggregate rows are averaged together with the individual node rows whenever
both pass the filter. -/
theorem chart_mean_over_filtered (actual predicted : PivotTable)
    (inchF lineF : List String) (es : List ChartEntry)
    (h : buildChartData (filterTable actual inchF lineF)
      (filterTable predicted inchF lineF) = Except.ok es)
    (m : Nat) (hm : m ∈ (filterTable actual inchF lineF).months) :
    (⟨m, "실제", claimMean actual inchF lineF m⟩ : ChartEntry) ∈ es ∧
      (⟨m, "예측", claimMean predicted inchF lineF m⟩ : ChartEntry) ∈ es := by
  rw [buildChartData] at h
  by_cases hc : (((filterTable actual inchF lineF).months.all
      fun x => decide (x ∈ (filterTable predicted inchF lineF).months)) = true)
  · rw [if_pos hc] at h
    cases h
    constructor
    · exact List.mem_append.2 (Or.inl (List.mem_map.2 ⟨m, hm, by
        rw [claimMean_eq_colMean]⟩))
    · exact List.mem_append.2 (Or.inr (List.mem_map.2 ⟨m, hm, by
        rw [claimMean_eq_colMean]⟩))
  · rw [if_neg hc] at h
    cases h

/-- C8 witness: filtering `exTable` by its own `inch` and `line` values
keeps the ALL-row (150) and both node rows (100, 50); the chart mean for
2024-01 is `(150 + 100 + 50) / 3 = 100` — not the node-only mean 75 — and
both series' entries with exactly that mean occur in the chart data. -/
theorem chart_mean_over_filtered_witness :
    202401 ∈ (filterTable exTable ["12인치"] ["L1"]).months ∧
      buildChartData (filterTable exTable ["12인치"] ["L1"])
          (filterTable exTable ["12인치"] ["L1"]) = Except.ok exChart ∧
      claimMean exTable ["12인치"] ["L1"] 202401 = some 100 ∧
      (⟨202401, "실제", claimMean exTable ["12인치"] ["L1"] 202401⟩ : ChartEntry) ∈ exChart ∧
      (⟨202401, "예측", claimMean exTable ["12인치"] ["L1"] 202401⟩ : ChartEntry) ∈ exChart := by
  have hmean : colMean (filterTable exTable ["12인치"] ["L1"]) 202401 = some 100 := by
    rw [colMean]
    rw [show colCells (filterTable exTable ["12인치"] ["L1"]) 202401 = [150, 100, 50] by decide]
    norm_num
  have hb0 : buildChartData (filterTable exTable ["12인치"] ["L1"])
      (filterTable exTable ["12인치"] ["L1"]) =
    Except.ok
      [⟨202401, "실제", colMean (filterTable exTable ["12인치"] ["L1"]) 202401⟩,
       ⟨202401, "예측", colMean (filterTable exTable ["12인치"] ["L1"]) 202401⟩] := rfl
  have hb : buildChartData (filterTable exTable ["12인치"] ["L1"])
      (filterTable exTable ["12인치"] ["L1"]) = Except.ok exChart := by
    rw [hb0, hmean]; rfl
  have h := chart_mean_over_filtered exTable exTable ["12인치"] ["L1"] exChart hb
    202401 (by decide)
  exact ⟨by decide, hb, by rw [claimMean_eq_colMean, hmean], h.1, h.2⟩

end Dashboard
